import Mathlib

/-!
Verification of the ChapterBridge NLP pack worker.

This file shallowly embeds the worker's Python source
(`nlp_worker/character_merge.py`, `nlp_worker/schema.py`,
`nlp_worker/qwen_client.py`, `nlp_worker/main.py`,
`nlp_worker/supabase_client.py`, `nlp_worker/enqueue.py`) in Lean and
proves or refutes the specification's claims about it.

Python strings are modelled as `List Char` over the ASCII fragment; on
this fragment `unicodedata.normalize('NFKC', s)` is the identity, so the
NFKC step of the source's normalizers is dropped.  Fallible Python code
is modelled with `Except`/`Option`; the database and the model endpoint
are parameters of the functions that use them.
-/

/-- Python strings, modelled as lists of characters. -/
abbrev PyStr := List Char

/-- Coerce a Lean string literal to the `PyStr` model. -/
def pys (s : String) : PyStr := s.data

/-- Python `str.isspace` / regex `\s` on the ASCII fragment:
space, tab, newline, carriage return, vertical tab, form feed. -/
def isSpaceChar (c : Char) : Bool :=
  c == ' ' || c == '\t' || c == '\n' || c == '\r' || c == '\x0b' || c == '\x0c'

/-- Python `str.lower` on a single ASCII character. -/
def lowerChar (c : Char) : Char :=
  match c with
  | 'A' => 'a' | 'B' => 'b' | 'C' => 'c' | 'D' => 'd' | 'E' => 'e' | 'F' => 'f'
  | 'G' => 'g' | 'H' => 'h' | 'I' => 'i' | 'J' => 'j' | 'K' => 'k' | 'L' => 'l'
  | 'M' => 'm' | 'N' => 'n' | 'O' => 'o' | 'P' => 'p' | 'Q' => 'q' | 'R' => 'r'
  | 'S' => 's' | 'T' => 't' | 'U' => 'u' | 'V' => 'v' | 'W' => 'w' | 'X' => 'x'
  | 'Y' => 'y' | 'Z' => 'z'
  | c => c

/-- Python `str.lower` (ASCII fragment). -/
def pyLower (s : PyStr) : PyStr := s.map lowerChar

/-- Python `str.lstrip()`. -/
def pyLStrip (s : PyStr) : PyStr := s.dropWhile isSpaceChar

/-- Python `str.rstrip()`. -/
def pyRStrip (s : PyStr) : PyStr := (s.reverse.dropWhile isSpaceChar).reverse

/-- Python `str.strip()`. -/
def pyStrip (s : PyStr) : PyStr := pyRStrip (pyLStrip s)

/-- Regex `\w` (ASCII fragment): letters, digits, underscore. -/
def isWordChar (c : Char) : Bool := c.isAlphanum || c == '_'

/-- Characters kept by `re.sub(r"[^\w\s'-]", '', text)` in `normalize_text`. -/
def keptByNormalize (c : Char) : Bool :=
  isWordChar c || isSpaceChar c || c == '\'' || c == '-'

lemma length_dropWhile_le (p : α → Bool) (l : List α) :
    (l.dropWhile p).length ≤ l.length := by
  induction l with
  | nil => simp
  | cons b t ih =>
    by_cases h : p b
    · simp only [List.dropWhile_cons, if_pos h, List.length_cons]
      omega
    · simp [List.dropWhile_cons, h]

/-- Model of `re.sub(r"\s+", ' ', text)`: replace each maximal run of
whitespace by a single space.  Written with one character of lookahead so
that the recursion is structural: a whitespace character is dropped while
its successor is also whitespace, and becomes a single `' '` at the end
of its run. -/
def collapseWs : PyStr → PyStr
  | [] => []
  | [c] => if isSpaceChar c then [' '] else [c]
  | c₁ :: c₂ :: rest =>
    if isSpaceChar c₁ then
      if isSpaceChar c₂ then collapseWs (c₂ :: rest)
      else ' ' :: collapseWs (c₂ :: rest)
    else c₁ :: collapseWs (c₂ :: rest)

/-- Embedding of `character_merge.normalize_text` (source lines 11-19):
NFKC (identity on the modelled fragment), lowercase, strip, collapse
whitespace runs, drop characters outside `[\w\s'-]`. -/
def normalize_text (s : PyStr) : PyStr :=
  if s = [] then []
  else (collapseWs (pyStrip (pyLower s))).filter keptByNormalize

/-- Embedding of `character_merge.normalize_alias` (source lines 22-28):
`normalize_text`, then drop apostrophes and double quotes, then strip. -/
def normalize_alias (s : PyStr) : PyStr :=
  if s = [] then []
  else pyStrip ((normalize_text s).filter (fun c => !(c == '\'' || c == '"')))

section StripLemmas

lemma dropWhile_dropWhile (p : α → Bool) (l : List α) :
    List.dropWhile p (List.dropWhile p l) = List.dropWhile p l := by
  induction l with
  | nil => simp
  | cons a l ih => by_cases h : p a <;> simp [List.dropWhile_cons, h, ih]

lemma isSpaceChar_lowerChar (c : Char) : isSpaceChar (lowerChar c) = isSpaceChar c := by
  unfold lowerChar
  split <;> rfl

lemma isSpaceChar_comp_lowerChar : isSpaceChar ∘ lowerChar = isSpaceChar :=
  funext isSpaceChar_lowerChar

lemma pyLStrip_pyLower (s : PyStr) : pyLStrip (pyLower s) = pyLower (pyLStrip s) := by
  unfold pyLStrip pyLower
  rw [List.dropWhile_map, isSpaceChar_comp_lowerChar]

lemma pyRStrip_pyLower (s : PyStr) : pyRStrip (pyLower s) = pyLower (pyRStrip s) := by
  unfold pyRStrip pyLower
  rw [← List.map_reverse, List.dropWhile_map, isSpaceChar_comp_lowerChar, List.map_reverse]

lemma pyStrip_pyLower (s : PyStr) : pyStrip (pyLower s) = pyLower (pyStrip s) := by
  unfold pyStrip
  rw [pyLStrip_pyLower, pyRStrip_pyLower]

lemma dropWhile_eq_self_of_head (p : α → Bool) (a : α) (l : List α) (h : p a = false) :
    List.dropWhile p (a :: l) = a :: l := by
  simp [List.dropWhile_cons, h]

/-- `pyLStrip` output either is empty or starts with a non-space character. -/
lemma pyLStrip_head (s : PyStr) :
    pyLStrip s = [] ∨ ∃ a l, pyLStrip s = a :: l ∧ isSpaceChar a = false := by
  induction s with
  | nil => left; rfl
  | cons a s ih =>
    by_cases h : isSpaceChar a
    · simpa [pyLStrip, List.dropWhile_cons, h] using ih
    · right
      exact ⟨a, s, by simp [pyLStrip, List.dropWhile_cons, h], by simpa using h⟩

/-- `pyRStrip` keeps an initial non-space character in place. -/
lemma pyRStrip_cons_of_head (a : Char) (l : PyStr) (h : isSpaceChar a = false) :
    pyRStrip (a :: l) = [] ∨ ∃ t, pyRStrip (a :: l) = a :: t := by
  unfold pyRStrip
  rw [show (a :: l).reverse = l.reverse ++ [a] by simp]
  rw [List.dropWhile_append]
  by_cases he : (List.dropWhile isSpaceChar l.reverse).isEmpty
  · simp [he, List.dropWhile_cons, h]
  · right
    simp only [he, if_false]
    exact ⟨(List.dropWhile isSpaceChar l.reverse).reverse, by simp⟩

lemma pyLStrip_pyRStrip_pyLStrip (s : PyStr) :
    pyLStrip (pyRStrip (pyLStrip s)) = pyRStrip (pyLStrip s) := by
  rcases pyLStrip_head s with h | ⟨a, l, h, ha⟩
  · rw [h]; rfl
  · rw [h]
    rcases pyRStrip_cons_of_head a l ha with h2 | ⟨t, h2⟩
    · rw [h2]; rfl
    · rw [h2]
      exact dropWhile_eq_self_of_head _ _ _ ha

lemma pyRStrip_pyRStrip (s : PyStr) : pyRStrip (pyRStrip s) = pyRStrip s := by
  unfold pyRStrip
  rw [List.reverse_reverse, dropWhile_dropWhile]

lemma pyStrip_pyStrip (s : PyStr) : pyStrip (pyStrip s) = pyStrip s := by
  unfold pyStrip
  rw [pyLStrip_pyRStrip_pyLStrip, pyRStrip_pyRStrip]

lemma pyLStrip_pyLStrip (s : PyStr) : pyLStrip (pyLStrip s) = pyLStrip s :=
  dropWhile_dropWhile _ _

lemma pyStrip_of_pyLStrip (s : PyStr) : pyStrip (pyLStrip s) = pyStrip s := by
  unfold pyStrip
  rw [pyLStrip_pyLStrip]

end StripLemmas

section NormalizeLemmas

lemma collapseWs_nil : collapseWs [] = [] := rfl

lemma normalize_text_pyStrip (s : PyStr) : normalize_text (pyStrip s) = normalize_text s := by
  unfold normalize_text
  by_cases hs : s = []
  · subst hs; rfl
  · by_cases hp : pyStrip s = []
    · rw [hp]
      simp only [hs, if_false, if_true]
      rw [pyStrip_pyLower, hp]
      show [] = List.filter keptByNormalize (collapseWs (pyLower []))
      rw [show pyLower [] = [] from rfl, collapseWs_nil]
      rfl
    · simp only [hs, hp, if_false]
      rw [pyStrip_pyLower, pyStrip_pyLower, pyStrip_pyStrip]

lemma normalize_alias_pyStrip (s : PyStr) : normalize_alias (pyStrip s) = normalize_alias s := by
  unfold normalize_alias
  by_cases hs : s = []
  · subst hs; rfl
  · by_cases hp : pyStrip s = []
    · simp only [hs, hp, if_true, if_false]
      have ht : normalize_text s = [] := by
        have := normalize_text_pyStrip s
        rw [hp] at this
        exact this.symm
      rw [ht]
      rfl
    · simp only [hs, hp, if_false]
      rw [normalize_text_pyStrip]

lemma normalize_alias_of_pyStrip_empty (s : PyStr) (h : pyStrip s = []) :
    normalize_alias s = [] := by
  have := normalize_alias_pyStrip s
  rw [h] at this
  exact this.symm

end NormalizeLemmas

/-- Items appended by the `merge_aliases` loop of
`character_merge.merge_aliases` (source lines 160-170), starting from a
given list of already-seen normalized forms. -/
def mergeAliasItems (seen : List PyStr) : List PyStr → List PyStr
  | [] => []
  | a :: rest =>
    if a = [] ∨ pyStrip a = [] then mergeAliasItems seen rest
    else if normalize_alias a = [] then mergeAliasItems seen rest
    else if normalize_alias a ∈ seen then mergeAliasItems seen rest
    else pyStrip a :: mergeAliasItems (normalize_alias a :: seen) rest

/-- Normalized forms seen by the `merge_aliases` loop after processing a
list of candidate aliases. -/
def mergeAliasSeen (seen : List PyStr) : List PyStr → List PyStr
  | [] => seen
  | a :: rest =>
    if a = [] ∨ pyStrip a = [] then mergeAliasSeen seen rest
    else if normalize_alias a = [] then mergeAliasSeen seen rest
    else if normalize_alias a ∈ seen then mergeAliasSeen seen rest
    else mergeAliasSeen (normalize_alias a :: seen) rest

/-- Embedding of `character_merge.merge_aliases` (source lines 145-172):
dedupe by normalized form, keep first-seen casing, exclude the canonical
name. -/
def merge_aliases (existing new : List PyStr) (canonical_name : PyStr) : List PyStr :=
  mergeAliasItems
    (if normalize_alias canonical_name = [] then [] else [normalize_alias canonical_name])
    (existing ++ new)

section MergeAliasLemmas

lemma mergeAliasItems_nil (seen : List PyStr) : mergeAliasItems seen [] = [] := rfl

lemma mergeAliasItems_cons (seen : List PyStr) (a : PyStr) (rest : List PyStr) :
    mergeAliasItems seen (a :: rest) =
      if a = [] ∨ pyStrip a = [] then mergeAliasItems seen rest
      else if normalize_alias a = [] then mergeAliasItems seen rest
      else if normalize_alias a ∈ seen then mergeAliasItems seen rest
      else pyStrip a :: mergeAliasItems (normalize_alias a :: seen) rest := rfl

lemma mergeAliasSeen_nil (seen : List PyStr) : mergeAliasSeen seen [] = seen := rfl

lemma mergeAliasSeen_cons (seen : List PyStr) (a : PyStr) (rest : List PyStr) :
    mergeAliasSeen seen (a :: rest) =
      if a = [] ∨ pyStrip a = [] then mergeAliasSeen seen rest
      else if normalize_alias a = [] then mergeAliasSeen seen rest
      else if normalize_alias a ∈ seen then mergeAliasSeen seen rest
      else mergeAliasSeen (normalize_alias a :: seen) rest := rfl

lemma mergeAliasSeen_mono (seen : List PyStr) (L : List PyStr) :
    ∀ x ∈ seen, x ∈ mergeAliasSeen seen L := by
  induction L generalizing seen with
  | nil => intro x hx; exact hx
  | cons a rest ih =>
    intro x hx
    rw [mergeAliasSeen_cons]
    by_cases h1 : a = [] ∨ pyStrip a = []
    · simp only [if_pos h1]; exact ih seen x hx
    · simp only [if_neg h1]
      by_cases h2 : normalize_alias a = []
      · simp only [if_pos h2]; exact ih seen x hx
      · simp only [if_neg h2]
        by_cases h3 : normalize_alias a ∈ seen
        · simp only [if_pos h3]; exact ih seen x hx
        · simp only [if_neg h3]
          exact ih _ x (List.mem_cons_of_mem _ hx)

lemma mergeAliasItems_props (seen : List PyStr) (L : List PyStr) :
    ∀ r ∈ mergeAliasItems seen L,
      pyStrip r = r ∧ r ≠ [] ∧ normalize_alias r ≠ [] ∧ normalize_alias r ∉ seen := by
  induction L generalizing seen with
  | nil => intro r hr; simp [mergeAliasItems_nil] at hr
  | cons a rest ih =>
    intro r hr
    rw [mergeAliasItems_cons] at hr
    by_cases h1 : a = [] ∨ pyStrip a = []
    · simp only [if_pos h1] at hr; exact ih seen r hr
    · simp only [if_neg h1] at hr
      by_cases h2 : normalize_alias a = []
      · simp only [if_pos h2] at hr; exact ih seen r hr
      · simp only [if_neg h2] at hr
        by_cases h3 : normalize_alias a ∈ seen
        · simp only [if_pos h3] at hr; exact ih seen r hr
        · simp only [if_neg h3] at hr
          rcases List.mem_cons.mp hr with rfl | hr2
          · refine ⟨pyStrip_pyStrip a, ?_, ?_, ?_⟩
            · exact fun hc => h1 (Or.inr hc)
            · rw [normalize_alias_pyStrip]; exact h2
            · rw [normalize_alias_pyStrip]; exact h3
          · have h := ih (normalize_alias a :: seen) r hr2
            exact ⟨h.1, h.2.1, h.2.2.1, fun hc => h.2.2.2 (List.mem_cons_of_mem _ hc)⟩

lemma mergeAliasItems_pairwise (seen : List PyStr) (L : List PyStr) :
    (mergeAliasItems seen L).Pairwise (fun x y => normalize_alias x ≠ normalize_alias y) := by
  induction L generalizing seen with
  | nil => simp [mergeAliasItems_nil]
  | cons a rest ih =>
    rw [mergeAliasItems_cons]
    by_cases h1 : a = [] ∨ pyStrip a = []
    · simp only [if_pos h1]; exact ih seen
    · simp only [if_neg h1]
      by_cases h2 : normalize_alias a = []
      · simp only [if_pos h2]; exact ih seen
      · simp only [if_neg h2]
        by_cases h3 : normalize_alias a ∈ seen
        · simp only [if_pos h3]; exact ih seen
        · simp only [if_neg h3]
          refine List.pairwise_cons.mpr ⟨?_, ih (normalize_alias a :: seen)⟩
          intro y hy hcontra
          have h := mergeAliasItems_props (normalize_alias a :: seen) rest y hy
          rw [normalize_alias_pyStrip] at hcontra
          exact h.2.2.2 (by rw [← hcontra]; exact List.mem_cons_self _ _)

lemma mergeAliasSeen_saturates (seen : List PyStr) (L : List PyStr) :
    ∀ b ∈ L, b = [] ∨ pyStrip b = [] ∨ normalize_alias b = [] ∨
      normalize_alias b ∈ mergeAliasSeen seen L := by
  induction L generalizing seen with
  | nil => intro b hb; simp at hb
  | cons a rest ih =>
    intro b hb
    rw [mergeAliasSeen_cons]
    by_cases h1 : a = [] ∨ pyStrip a = []
    · simp only [if_pos h1]
      rcases List.mem_cons.mp hb with rfl | hb2
      · rcases h1 with h | h
        · exact Or.inl h
        · exact Or.inr (Or.inl h)
      · exact ih seen b hb2
    · simp only [if_neg h1]
      by_cases h2 : normalize_alias a = []
      · simp only [if_pos h2]
        rcases List.mem_cons.mp hb with rfl | hb2
        · exact Or.inr (Or.inr (Or.inl h2))
        · exact ih seen b hb2
      · simp only [if_neg h2]
        by_cases h3 : normalize_alias a ∈ seen
        · simp only [if_pos h3]
          rcases List.mem_cons.mp hb with rfl | hb2
          · exact Or.inr (Or.inr (Or.inr (mergeAliasSeen_mono seen rest _ h3)))
          · exact ih seen b hb2
        · simp only [if_neg h3]
          rcases List.mem_cons.mp hb with rfl | hb2
          · exact Or.inr (Or.inr (Or.inr
              (mergeAliasSeen_mono _ rest _ (List.mem_cons_self _ _))))
          · exact ih (normalize_alias a :: seen) b hb2

lemma mergeAliasItems_append (seen : List PyStr) (L₁ L₂ : List PyStr) :
    mergeAliasItems seen (L₁ ++ L₂) =
      mergeAliasItems seen L₁ ++ mergeAliasItems (mergeAliasSeen seen L₁) L₂ := by
  induction L₁ generalizing seen with
  | nil => rw [List.nil_append, mergeAliasItems_nil, List.nil_append, mergeAliasSeen_nil]
  | cons a rest ih =>
    rw [List.cons_append, mergeAliasItems_cons, mergeAliasItems_cons, mergeAliasSeen_cons]
    by_cases h1 : a = [] ∨ pyStrip a = []
    · simp only [if_pos h1]; exact ih seen
    · simp only [if_neg h1]
      by_cases h2 : normalize_alias a = []
      · simp only [if_pos h2]; exact ih seen
      · simp only [if_neg h2]
        by_cases h3 : normalize_alias a ∈ seen
        · simp only [if_pos h3]; exact ih seen
        · simp only [if_neg h3]
          rw [List.cons_append]
          exact congrArg _ (ih (normalize_alias a :: seen))

lemma mergeAliasSeen_append (seen : List PyStr) (L₁ L₂ : List PyStr) :
    mergeAliasSeen seen (L₁ ++ L₂) = mergeAliasSeen (mergeAliasSeen seen L₁) L₂ := by
  induction L₁ generalizing seen with
  | nil => rw [List.nil_append, mergeAliasSeen_nil]
  | cons a rest ih =>
    rw [List.cons_append, mergeAliasSeen_cons, mergeAliasSeen_cons]
    by_cases h1 : a = [] ∨ pyStrip a = []
    · simp only [if_pos h1]; exact ih seen
    · simp only [if_neg h1]
      by_cases h2 : normalize_alias a = []
      · simp only [if_pos h2]; exact ih seen
      · simp only [if_neg h2]
        by_cases h3 : normalize_alias a ∈ seen
        · simp only [if_pos h3]; exact ih seen
        · simp only [if_neg h3]
          exact ih (normalize_alias a :: seen)

lemma mergeAliasItems_replay (seen : List PyStr) (L : List PyStr) :
    mergeAliasItems seen (mergeAliasItems seen L) = mergeAliasItems seen L ∧
      mergeAliasSeen seen (mergeAliasItems seen L) = mergeAliasSeen seen L := by
  induction L generalizing seen with
  | nil => exact ⟨rfl, rfl⟩
  | cons a rest ih =>
    rw [mergeAliasItems_cons, mergeAliasSeen_cons]
    by_cases h1 : a = [] ∨ pyStrip a = []
    · simp only [if_pos h1]; exact ih seen
    · simp only [if_neg h1]
      by_cases h2 : normalize_alias a = []
      · simp only [if_pos h2]; exact ih seen
      · simp only [if_neg h2]
        by_cases h3 : normalize_alias a ∈ seen
        · simp only [if_pos h3]; exact ih seen
        · simp only [if_neg h3]
          have hps : pyStrip a ≠ [] := fun hc => h1 (Or.inr hc)
          have hc1 : ¬(pyStrip a = [] ∨ pyStrip (pyStrip a) = []) := by
            rw [pyStrip_pyStrip]
            exact fun hc => hps (hc.elim id id)
          constructor
          · rw [mergeAliasItems_cons]
            simp only [if_neg hc1, normalize_alias_pyStrip, if_neg h2, if_neg h3]
            rw [pyStrip_pyStrip]
            exact congrArg _ (ih (normalize_alias a :: seen)).1
          · rw [mergeAliasSeen_cons]
            simp only [if_neg hc1, normalize_alias_pyStrip, if_neg h2, if_neg h3]
            exact (ih (normalize_alias a :: seen)).2

lemma mergeAliasItems_all_skipped (seen : List PyStr) (L : List PyStr)
    (h : ∀ b ∈ L, b = [] ∨ pyStrip b = [] ∨ normalize_alias b = [] ∨ normalize_alias b ∈ seen) :
    mergeAliasItems seen L = [] := by
  induction L with
  | nil => rfl
  | cons a rest ih =>
    have ha := h a (List.mem_cons_self _ _)
    rw [mergeAliasItems_cons]
    by_cases h1 : a = [] ∨ pyStrip a = []
    · simp only [if_pos h1]; exact ih fun b hb => h b (List.mem_cons_of_mem _ hb)
    · simp only [if_neg h1]
      by_cases h2 : normalize_alias a = []
      · simp only [if_pos h2]; exact ih fun b hb => h b (List.mem_cons_of_mem _ hb)
      · simp only [if_neg h2]
        by_cases h3 : normalize_alias a ∈ seen
        · simp only [if_pos h3]; exact ih fun b hb => h b (List.mem_cons_of_mem _ hb)
        · exfalso
          rcases ha with hc | hc | hc | hc
          · exact h1 (Or.inl hc)
          · exact h1 (Or.inr hc)
          · exact h2 hc
          · exact h3 hc

end MergeAliasLemmas

section FirstOccurrence

lemma normalize_alias_nil : normalize_alias [] = [] := rfl

lemma mergeAliasItems_first_occ (seen : List PyStr) (L : List PyStr) :
    ∀ r ∈ mergeAliasItems seen L,
      ∃ a, L.find? (fun b => normalize_alias b == normalize_alias r) = some a ∧ r = pyStrip a := by
  induction L generalizing seen with
  | nil => intro r hr; simp [mergeAliasItems_nil] at hr
  | cons a rest ih =>
    intro r hr
    rw [mergeAliasItems_cons] at hr
    by_cases h1 : a = [] ∨ pyStrip a = []
    · simp only [if_pos h1] at hr
      have hna : normalize_alias a = [] := by
        rcases h1 with rfl | h
        · exact normalize_alias_nil
        · exact normalize_alias_of_pyStrip_empty a h
      have hnr := (mergeAliasItems_props seen rest r hr).2.2.1
      have hfalse : (normalize_alias a == normalize_alias r) = false := by
        rw [hna]
        exact beq_eq_false_iff_ne.mpr fun hc => hnr hc.symm
      rw [List.find?_cons_of_neg _ (by simp [hfalse])]
      exact ih seen r hr
    · simp only [if_neg h1] at hr
      by_cases h2 : normalize_alias a = []
      · simp only [if_pos h2] at hr
        have hnr := (mergeAliasItems_props seen rest r hr).2.2.1
        have hfalse : (normalize_alias a == normalize_alias r) = false := by
          rw [h2]
          exact beq_eq_false_iff_ne.mpr fun hc => hnr hc.symm
        rw [List.find?_cons_of_neg _ (by simp [hfalse])]
        exact ih seen r hr
      · simp only [if_neg h2] at hr
        by_cases h3 : normalize_alias a ∈ seen
        · simp only [if_pos h3] at hr
          have hnr := (mergeAliasItems_props seen rest r hr).2.2.2
          have hfalse : (normalize_alias a == normalize_alias r) = false := by
            exact beq_eq_false_iff_ne.mpr fun hc => hnr (hc ▸ h3)
          rw [List.find?_cons_of_neg _ (by simp [hfalse])]
          exact ih seen r hr
        · simp only [if_neg h3] at hr
          rcases List.mem_cons.mp hr with rfl | hr2
          · refine ⟨a, ?_, rfl⟩
            rw [List.find?_cons_of_pos]
            rw [normalize_alias_pyStrip]
            exact beq_self_eq_true _
          · have hnr := (mergeAliasItems_props (normalize_alias a :: seen) rest r hr2).2.2.2
            have hfalse : (normalize_alias a == normalize_alias r) = false := by
              refine beq_eq_false_iff_ne.mpr fun hc => hnr ?_
              rw [← hc]
              exact List.mem_cons_self _ _
            rw [List.find?_cons_of_neg _ (by simp [hfalse])]
            exact ih (normalize_alias a :: seen) r hr2

lemma merge_aliases_idem (ex new : List PyStr) (cn : PyStr) :
    merge_aliases (merge_aliases ex new cn) new cn = merge_aliases ex new cn := by
  unfold merge_aliases
  rw [mergeAliasItems_append,
    (mergeAliasItems_replay _ (ex ++ new)).1,
    (mergeAliasItems_replay _ (ex ++ new)).2,
    mergeAliasItems_all_skipped _ new
      (fun b hb => mergeAliasSeen_saturates _ (ex ++ new) b (List.mem_append_right _ hb)),
    List.append_nil]

end FirstOccurrence

/-- A character fact dict as built by `process_character_updates`
(source lines 316-323) and stored in `characters.character_facts`. -/
structure CharFact where
  fact : PyStr
  chapter : Option Int := none
  segment : Option Int := none
  source : Option PyStr := none
deriving DecidableEq

/-- A validated `character_updates` entry: `{name, aliases[], facts[]}`
(schema `CharacterUpdateModel`). -/
structure CharUpdate where
  name : PyStr
  aliases : List PyStr
  facts : List PyStr
deriving DecidableEq

/-- A row of the `characters` table as read and written by the worker. -/
structure CharRecord where
  name : PyStr
  aliases : List PyStr
  character_facts : List CharFact
  description : PyStr
  model_version : PyStr
deriving DecidableEq

/-- The `source_id = f"segment_{segment_number}"` string of
`process_character_updates` (source line 292). -/
def sourceId (segment_number : Int) : PyStr := pys ("segment_" ++ toString segment_number)

/-- New facts built from a `character_updates` entry's `facts` strings
(`process_character_updates`, source lines 316-323): keep non-empty
facts, strip them, stamp the segment number and the source id. -/
def mkNewFacts (facts : List PyStr) (segment_number : Int) : List CharFact :=
  (facts.filter fun f => !f.isEmpty && !(pyStrip f).isEmpty).map
    fun f => { fact := pyStrip f, segment := some segment_number,
               source := some (sourceId segment_number) }

/-- Embedding of `character_merge.find_existing_character`
(source lines 101-142): first existing character whose normalized name or
any normalized alias is in the search set built from the update's name
and aliases. -/
def find_existing_character (work_characters : List CharRecord) (name : PyStr)
    (aliases : List PyStr) : Option CharRecord :=
  let terms := normalize_alias name :: (aliases.map normalize_alias).filter (fun t => !t.isEmpty)
  work_characters.find? fun c =>
    terms.contains (normalize_alias c.name) ||
      c.aliases.any fun a => terms.contains (normalize_alias a)

/-- The update path of `process_character_updates` (source lines 327-349)
applied to a matched existing character: merged aliases, facts appended
by plain list concatenation, description set to the empty string, model
version overwritten.  This is the row state written through
`db_client.update_character`. -/
def updatedCharRecord (existing : CharRecord) (u : CharUpdate) (segment_number : Int)
    (model_version : PyStr) : CharRecord :=
  { existing with
    aliases := merge_aliases existing.aliases u.aliases existing.name
    character_facts := existing.character_facts ++ mkNewFacts u.facts segment_number
    description := []
    model_version := model_version }

/-- Embedding of `character_merge.should_update_description`
(source lines 234-255). -/
def should_update_description (existing_desc new_desc : PyStr) : Bool :=
  if normalize_text new_desc = [] then false
  else if normalize_text existing_desc = [] then true
  else if 2 * new_desc.length > 3 * existing_desc.length ∧ new_desc.length > 50 then true
  else false

/-- Concrete existing character used in the claim C3 counterexample. -/
def c3Existing : CharRecord :=
  { name := pys "Arthur", aliases := [], character_facts := [],
    description := [], model_version := [] }

/-- Concrete character update used in the claim C3 counterexample: one
new fact for an already-known character. -/
def c3Update : CharUpdate :=
  { name := pys "Arthur", aliases := [], facts := [pys "protagonist"] }

/-- C3 counterexample: running the merge engine twice with the same
`(name, aliases, facts)` and the same segment number does NOT produce
the same fact list as running it once — `process_character_updates`
appends the new facts by plain concatenation (source line 336), so the
second run duplicates the `"protagonist"` fact. -/
theorem C3_counterexample :
    (updatedCharRecord (updatedCharRecord c3Existing c3Update 1 []) c3Update 1 []).character_facts
      ≠ (updatedCharRecord c3Existing c3Update 1 []).character_facts := by
  decide

/-- C3 (amended): running the merge engine's update path twice with the
same `(name, aliases, facts)` input and the same segment number produces
the same alias list and the same (empty) description as running it once,
but the stored fact list is the plain concatenation of the first run's
facts with the new facts again — facts are not deduplicated. -/
theorem C3_merge_idempotence_amended (E : CharRecord) (u : CharUpdate) (n : Int)
    (mv mv' : PyStr) :
    (updatedCharRecord (updatedCharRecord E u n mv) u n mv').aliases
        = (updatedCharRecord E u n mv).aliases ∧
    (updatedCharRecord (updatedCharRecord E u n mv) u n mv').description
        = (updatedCharRecord E u n mv).description ∧
    (updatedCharRecord (updatedCharRecord E u n mv) u n mv').character_facts
        = (updatedCharRecord E u n mv).character_facts ++ mkNewFacts u.facts n := by
  refine ⟨?_, rfl, rfl⟩
  show merge_aliases (merge_aliases E.aliases u.aliases E.name) u.aliases E.name
    = merge_aliases E.aliases u.aliases E.name
  exact merge_aliases_idem E.aliases u.aliases E.name

/-- Concrete existing character with a non-empty, non-boilerplate
description, used in the claim C7 counterexample. -/
def c7Existing : CharRecord :=
  { name := pys "Arthur", aliases := [], character_facts := [],
    description := pys "abc", model_version := [] }

/-- Concrete character update (with no description at all, as the engine
hardcodes the empty incoming description) used in the C7 counterexample. -/
def c7Update : CharUpdate :=
  { name := pys "Arthur", aliases := [], facts := [] }

/-- C7 counterexample: the incoming description is empty (the engine
hardcodes `description = ""`, source line 313) and the existing
description `"abc"` is non-empty and not boilerplate, so by the claim it
must be kept unchanged; the update path nevertheless overwrites it with
the empty string (source line 341). -/
theorem C7_counterexample :
    (updatedCharRecord c7Existing c7Update 1 []).description ≠ c7Existing.description := by
  decide

/-- C7 (amended): the merge engine's update path always stores an empty
description, ignoring both the incoming and the existing description;
the helper `should_update_description` (which the engine never calls)
returns true exactly when the new description is non-empty after
normalization AND (the existing description is empty after normalization
OR the new one is longer than 50 characters and more than 1.5 times the
existing length) — it has no boilerplate-phrase check. -/
theorem C7_description_rule_amended :
    (∀ (E : CharRecord) (u : CharUpdate) (n : Int) (mv : PyStr),
        (updatedCharRecord E u n mv).description = []) ∧
    (∀ e n : PyStr, should_update_description e n = true ↔
        (normalize_text n ≠ [] ∧ (normalize_text e = [] ∨
          (2 * n.length > 3 * e.length ∧ n.length > 50)))) := by
  constructor
  · intro E u n mv; rfl
  · intro e n
    unfold should_update_description
    split_ifs with h1 h2 h3
    · simp [h1]
    · simp [h1, h2]
    · simp [h1, h3]
    · simp [h1, h2, h3]

/-- C8: every alias list produced by `merge_aliases` (the merge engine's
update path passes the existing row's canonical name, the insert path
passes the update's name): no entry normalizes to the canonical name's
normalized form, no two entries share a normalized form, and every entry
is the stripped first occurrence, in existing-then-incoming order, of
its normalized form. -/
theorem C8_alias_list_invariant (existing new : List PyStr) (canonical : PyStr) :
    (∀ x ∈ merge_aliases existing new canonical,
        normalize_alias x ≠ normalize_alias canonical) ∧
    (merge_aliases existing new canonical).Pairwise
        (fun x y => normalize_alias x ≠ normalize_alias y) ∧
    (∀ x ∈ merge_aliases existing new canonical,
        ∃ a, (existing ++ new).find? (fun b => normalize_alias b == normalize_alias x) = some a ∧
          x = pyStrip a) := by
  refine ⟨?_, mergeAliasItems_pairwise _ _, mergeAliasItems_first_occ _ _⟩
  intro x hx
  have h := mergeAliasItems_props _ _ x hx
  by_cases hc : normalize_alias canonical = []
  · rw [hc]
    exact h.2.2.1
  · intro hcontra
    apply h.2.2.2
    simp only [merge_aliases, if_neg hc] at hx ⊢
    rw [hcontra]
    exact List.mem_cons_self _ _

/-- Witness for C8 at a concrete input: for
`merge_aliases ["Art"] ["art", "Arthur Leywin"] "Arthur"` the entry
`"Art"` does not normalize to the canonical name and the produced list
is pairwise distinct under normalization. -/
theorem C8_alias_list_invariant_witness :
    normalize_alias (pys "Art") ≠ normalize_alias (pys "Arthur") ∧
    (merge_aliases [pys "Art"] [pys "art", pys "Arthur Leywin"] (pys "Arthur")).Pairwise
      (fun x y => normalize_alias x ≠ normalize_alias y) :=
  ⟨(C8_alias_list_invariant [pys "Art"] [pys "art", pys "Arthur Leywin"] (pys "Arthur")).1
      (pys "Art") (by decide),
    (C8_alias_list_invariant [pys "Art"] [pys "art", pys "Arthur Leywin"] (pys "Arthur")).2.1⟩

/-! ## JSON model for `schema.py`

JSON-parseable Python values (the inputs of `validate_and_normalize` and
`normalize_model_output`), with numbers as exact rationals. -/

inductive JValue where
  | null
  | bool (b : Bool)
  | num (q : Rat)
  | str (s : PyStr)
  | arr (xs : List JValue)
  | obj (fs : List (PyStr × JValue))

/-- Python truthiness of a JSON value. -/
def JValue.truthy : JValue → Bool
  | .null => false
  | .bool b => b
  | .num q => !(q == 0)
  | .str s => !s.isEmpty
  | .arr xs => !xs.isEmpty
  | .obj fs => !fs.isEmpty

/-- Whether a JSON value is a dict. -/
def JValue.isObj : JValue → Bool
  | .obj _ => true
  | _ => false

/-- Python `d[k]` / `k in d` lookup on a dict's field list. -/
def getField (fs : List (PyStr × JValue)) (k : PyStr) : Option JValue :=
  (fs.find? fun f => f.1 == k).map (·.2)

/-- Python `d[k] = v`: replace in place, or append preserving insertion
order. -/
def setField (fs : List (PyStr × JValue)) (k : PyStr) (v : JValue) : List (PyStr × JValue) :=
  if fs.any (fun f => f.1 == k) then fs.map fun f => if f.1 == k then (k, v) else f
  else fs ++ [(k, v)]

/-- Python `list(v)`: succeeds on lists (copy), dicts (list of keys) and
strings (list of characters); raises `TypeError` on other values. -/
def pyListOf : JValue → Except PyStr (List JValue)
  | .arr xs => .ok xs
  | .obj fs => .ok (fs.map fun f => .str f.1)
  | .str s => .ok (s.map fun c => .str [c])
  | _ => .error (pys "TypeError: object is not iterable")

/-- Python `str(v)`.  The decimal rendering of non-integral numbers and
the `repr` of containers are not modelled precisely; no claim depends on
them. -/
def pyStrOf : JValue → PyStr
  | .str s => s
  | .null => pys "None"
  | .bool true => pys "True"
  | .bool false => pys "False"
  | .num q => pys (toString q.num ++ (if q.den == 1 then "" else "/" ++ toString q.den))
  | .arr _ => pys "[...]"
  | .obj _ => pys "\x7b...\x7d"

/-- Python `str.isdigit` (ASCII fragment). -/
def pyIsDigit (s : PyStr) : Bool := !s.isEmpty && s.all Char.isDigit

/-- Default tone dict of `SegmentSummaryModel.tone` and of
`ensure_tone_dict` (schema source lines 49, 67-76). -/
def toneDefault : JValue :=
  .obj [(pys "primary", .str []), (pys "secondary", .arr []), (pys "intensity", .num (1/2))]

/-- Embedding of `SegmentSummaryModel.ensure_tone_dict` (schema source
lines 67-76): replace null/non-dict by the default tone, fill missing or
null `secondary` and `intensity`. -/
def ensure_tone_dict (v : JValue) : JValue :=
  match v with
  | .obj fs =>
    let fs1 := match getField fs (pys "secondary") with
      | none => setField fs (pys "secondary") (.arr [])
      | some .null => setField fs (pys "secondary") (.arr [])
      | some _ => fs
    let fs2 := match getField fs1 (pys "intensity") with
      | none => setField fs1 (pys "intensity") (.num (1/2))
      | some .null => setField fs1 (pys "intensity") (.num (1/2))
      | some _ => fs1
    .obj fs2
  | _ => toneDefault

/-- Pydantic validation of a `str = ""` field in lax mode: missing gives
the default, a string passes, anything else is a validation error. -/
def validateStrField (fs : List (PyStr × JValue)) (k : PyStr) : Except PyStr PyStr :=
  match getField fs k with
  | none => .ok []
  | some (.str s) => .ok s
  | some _ => .error (pys "Input should be a valid string")

/-- Pydantic validation of `List[str]` elements in lax mode: each element
must be a string. -/
def validateStrList : List JValue → Except PyStr (List PyStr)
  | [] => .ok []
  | .str s :: rest => do
    let t ← validateStrList rest
    .ok (s :: t)
  | _ :: _ => .error (pys "Input should be a valid string")

/-- Pydantic validation of `List[Dict[str, Any]]` elements: each element
must be a dict. -/
def validateDictList : List JValue → Except PyStr (List JValue)
  | [] => .ok []
  | .obj fs :: rest => do
    let t ← validateDictList rest
    .ok (.obj fs :: t)
  | _ :: _ => .error (pys "Input should be a valid dictionary")

/-- Embedding of `SegmentSummaryModel.ensure_events_list` (schema source
lines 51-58): null to `[]`, string to a singleton, otherwise `list(v)`
when truthy (which raises on numbers and booleans) and `[]` when falsy. -/
def ensure_events_list (v : JValue) : Except PyStr (List JValue) :=
  match v with
  | .null => .ok []
  | .str s => .ok [.str s]
  | v => if v.truthy then pyListOf v else .ok []

/-- Embedding of `SegmentSummaryModel.ensure_list` for `beats` and
`key_dialogue` (schema source lines 60-65). -/
def ensure_list (v : JValue) : Except PyStr (List JValue) :=
  match v with
  | .null => .ok []
  | v => if v.truthy then pyListOf v else .ok []

/-- Normalized `segment_summary` document (the `model_dump` of
`SegmentSummaryModel`). -/
structure SegmentSummaryNorm where
  summary : PyStr
  summary_short : PyStr
  events : List PyStr
  beats : List JValue
  key_dialogue : List JValue
  tone : JValue

/-- Pydantic validation of `SegmentSummaryModel` (schema source lines
42-76): before-validators per field, then lax type checks. -/
def validateSegmentSummary (v : JValue) : Except PyStr SegmentSummaryNorm :=
  match v with
  | .obj fs => do
    let summary ← validateStrField fs (pys "summary")
    let summary_short ← validateStrField fs (pys "summary_short")
    let events ← match getField fs (pys "events") with
      | none => pure []
      | some ev => do validateStrList (← ensure_events_list ev)
    let beats ← match getField fs (pys "beats") with
      | none => pure []
      | some bv => do validateDictList (← ensure_list bv)
    let key_dialogue ← match getField fs (pys "key_dialogue") with
      | none => pure []
      | some kv => do validateDictList (← ensure_list kv)
    let tone := match getField fs (pys "tone") with
      | none => toneDefault
      | some tv => ensure_tone_dict tv
    .ok ⟨summary, summary_short, events, beats, key_dialogue, tone⟩
  | _ => .error (pys "Input should be a valid dictionary")

/-- Normalized `segment_entities` document: the thirteen arrays. -/
structure SegmentEntitiesNorm where
  characters : List JValue
  locations : List JValue
  items : List JValue
  time_refs : List JValue
  organizations : List JValue
  factions : List JValue
  titles_ranks : List JValue
  skills : List JValue
  creatures : List JValue
  concepts : List JValue
  relationships : List JValue
  emotions : List JValue
  keywords : List JValue

/-- Per-field coercion of `SegmentEntitiesModel.ensure_all_lists`
(schema source lines 95-110): missing or null to `[]`, a list kept, a
non-list to `[value]` when truthy and `[]` when falsy. -/
def ensureListField (fs : List (PyStr × JValue)) (k : PyStr) : List JValue :=
  match getField fs k with
  | none => []
  | some .null => []
  | some (.arr xs) => xs
  | some v => if v.truthy then [v] else []

/-- Pydantic validation of `SegmentEntitiesModel` (schema source lines
79-110): `ensure_all_lists` coerces every field, a non-dict input
becomes `{}` and therefore all defaults; no error is possible. -/
def validateSegmentEntities (v : JValue) : SegmentEntitiesNorm :=
  match v with
  | .obj fs =>
    { characters := ensureListField fs (pys "characters")
      locations := ensureListField fs (pys "locations")
      items := ensureListField fs (pys "items")
      time_refs := ensureListField fs (pys "time_refs")
      organizations := ensureListField fs (pys "organizations")
      factions := ensureListField fs (pys "factions")
      titles_ranks := ensureListField fs (pys "titles_ranks")
      skills := ensureListField fs (pys "skills")
      creatures := ensureListField fs (pys "creatures")
      concepts := ensureListField fs (pys "concepts")
      relationships := ensureListField fs (pys "relationships")
      emotions := ensureListField fs (pys "emotions")
      keywords := ensureListField fs (pys "keywords") }
  | _ => ⟨[], [], [], [], [], [], [], [], [], [], [], [], []⟩

/-- The generic-name blocklist of `CharacterUpdateModel.validate_name`
(schema source lines 130-138). -/
def invalidNames : List PyStr :=
  [pys "ayah", pys "ibu", pys "bapak", pys "kakak", pys "adik", pys "anak", pys "orang tua",
   pys "pria", pys "wanita", pys "laki-laki", pys "perempuan", pys "orang",
   pys "orang kekar", pys "pria berbaju", pys "wanita muda", pys "pemuda",
   pys "anak laki-laki", pys "anak perempuan", pys "gadis", pys "bocah",
   pys "he", pys "she", pys "they", pys "person", pys "man", pys "woman", pys "boy", pys "girl",
   pys "father", pys "mother", pys "brother", pys "sister", pys "parent", pys "child",
   pys "unknown", pys "unnamed", pys "none", pys "n/a"]

/-- Embedding of `CharacterUpdateModel.validate_name` (schema source
lines 119-147): falsy or non-string becomes `""`, then strip, blocklist,
minimum length 2, all-digits rejection. -/
def validate_name (v : JValue) : PyStr :=
  match v with
  | .str s =>
    if s.isEmpty then []
    else
      let v' := pyStrip s
      if invalidNames.contains (pyLower v') then []
      else if v'.length < 2 || pyIsDigit v' then []
      else v'
  | _ => []

/-- Embedding of `CharacterUpdateModel.ensure_aliases_list` (schema
source lines 149-156). -/
def ensure_aliases_list (v : JValue) : Except PyStr (List JValue) :=
  match v with
  | .null => .ok []
  | .str s => .ok [.str s]
  | v => if v.truthy then pyListOf v else .ok []

/-- Embedding of `CharacterUpdateModel.ensure_facts_list` (schema source
lines 158-168): keep truthy items whose stripped `str()` is non-empty,
stripped. -/
def ensure_facts_list (v : JValue) : List PyStr :=
  match v with
  | .null => []
  | .str s => [s]
  | .arr xs =>
    (xs.filter fun item => item.truthy && !(pyStrip (pyStrOf item)).isEmpty).map
      fun item => pyStrip (pyStrOf item)
  | _ => []

/-- Embedding of `NLPOutputModel.ensure_char_updates_list` (schema
source lines 177-191): null and non-lists become `[]`; only dict entries
with a truthy `name` are kept. -/
def ensure_char_updates_list (v : JValue) : List JValue :=
  match v with
  | .arr xs =>
    xs.filter fun item =>
      match item with
      | .obj fs =>
        match getField fs (pys "name") with
        | some nv => nv.truthy
        | none => false
      | _ => false
  | _ => []

/-- Pydantic validation of one `CharacterUpdateModel` entry. -/
def validateCharUpdate (item : JValue) : Except PyStr CharUpdate :=
  match item with
  | .obj fs => do
    let nv ← match getField fs (pys "name") with
      | none => Except.error (pys "Field required: name")
      | some nv => Except.ok nv
    let aliases ← match getField fs (pys "aliases") with
      | none => pure []
      | some av => do validateStrList (← ensure_aliases_list av)
    let facts := match getField fs (pys "facts") with
      | none => []
      | some fv => ensure_facts_list fv
    .ok { name := validate_name nv, aliases := aliases, facts := facts }
  | _ => .error (pys "Input should be a valid dictionary")

/-- Normalized full model output (the `model_dump` of `NLPOutputModel`). -/
structure NLPDoc where
  segment_summary : SegmentSummaryNorm
  segment_entities : SegmentEntitiesNorm
  character_updates : List CharUpdate

/-- Embedding of `NLPOutputModel.ensure_required_fields` (schema source
lines 193-202): a non-dict becomes the empty skeleton, missing or null
`segment_summary` / `segment_entities` become `{}`. -/
def ensure_required_fields (v : JValue) : List (PyStr × JValue) :=
  match v with
  | .obj fs =>
    let fs1 := match getField fs (pys "segment_summary") with
      | none => setField fs (pys "segment_summary") (.obj [])
      | some .null => setField fs (pys "segment_summary") (.obj [])
      | some _ => fs
    match getField fs1 (pys "segment_entities") with
    | none => setField fs1 (pys "segment_entities") (.obj [])
    | some .null => setField fs1 (pys "segment_entities") (.obj [])
    | some _ => fs1
  | _ => [(pys "segment_summary", .obj []), (pys "segment_entities", .obj [])]

/-- Pydantic validation of `NLPOutputModel` (schema source lines
171-202): the model-level before-validator, then the three fields in
declaration order. -/
def nlpModelValidate (raw : JValue) : Except PyStr NLPDoc := do
  let fs := ensure_required_fields raw
  let ss ← validateSegmentSummary ((getField fs (pys "segment_summary")).getD .null)
  let se := validateSegmentEntities ((getField fs (pys "segment_entities")).getD .null)
  let cu ← (match getField fs (pys "character_updates") with
    | none => ([] : List JValue)
    | some cv => ensure_char_updates_list cv).mapM validateCharUpdate
  .ok ⟨ss, se, cu⟩

/-- `NLPOutputModel().model_dump()`: the all-defaults document. -/
def NLPDocDefault : NLPDoc :=
  ⟨⟨[], [], [], [], [], toneDefault⟩, ⟨[], [], [], [], [], [], [], [], [], [], [], [], []⟩, []⟩

/-- Embedding of `schema.normalize_model_output` (schema source lines
205-220): validation failure falls back to the all-defaults document. -/
def normalize_model_output (raw : JValue) : NLPDoc :=
  match nlpModelValidate raw with
  | .ok d => d
  | .error _ => NLPDocDefault

/-- Embedding of `schema.validate_and_normalize` (schema source lines
223-240).  The `none` in the middle component models the empty dict `{}`
returned on a validation exception. -/
def validate_and_normalize (raw : JValue) : Bool × Option NLPDoc × Option PyStr :=
  match nlpModelValidate raw with
  | .error e => (false, none, some e)
  | .ok d =>
    if d.segment_summary.summary = [] then (false, some d, some (pys "summary is empty"))
    else (true, some d, none)

/-- Raw model output whose `segment_entities.characters` is the falsy
scalar `0`, used in the claim C6 counterexample. -/
def c6RawScalar : JValue :=
  .obj [(pys "segment_summary", .obj [(pys "summary", .str (pys "ok"))]),
        (pys "segment_entities", .obj [(pys "characters", .num 0)])]

/-- Raw model output whose `segment_summary.events` is the number `1`,
used in the claim C6 counterexample. -/
def c6RawBadEvents : JValue :=
  .obj [(pys "segment_summary", .obj [(pys "summary", .str (pys "ok")), (pys "events", .num 1)]),
        (pys "segment_entities", .obj [])]

/-- C6 counterexample: the falsy scalar `0` in the list-typed field
`characters` is coerced to `[]`, not to the one-element array `[0]`; and
the validator also rejects an input whose summary is non-empty after
coercion, because `list(1)` raises inside the `events` coercion — so the
rejection condition is not exactly "summary empty". -/
theorem C6_counterexample :
    (normalize_model_output c6RawScalar).segment_entities.characters = [] ∧
    (validate_and_normalize c6RawBadEvents).1 = false ∧
    (validate_and_normalize c6RawBadEvents).2.2 ≠ some (pys "summary is empty") := by
  refine ⟨rfl, rfl, ?_⟩
  decide

/-- C6 (amended): in `ensure_all_lists`, a list-typed entity field that
is missing or null is coerced to `[]`, a non-list truthy value to the
one-element array containing it, and a non-list falsy value to `[]`;
all thirteen entity fields go through this coercion; and the validator
returns not-ok exactly when the pydantic validation raises a validation
error or `segment_summary.summary` is empty after coercion. -/
theorem C6_validation_contract_amended :
    (∀ (fs : List (PyStr × JValue)) (k : PyStr),
      (getField fs k = some JValue.null → ensureListField fs k = []) ∧
      (∀ v, getField fs k = some v → (∀ xs, v ≠ JValue.arr xs) →
        (v.truthy = true → ensureListField fs k = [v]) ∧
        (v.truthy = false → ensureListField fs k = []))) ∧
    (∀ fs : List (PyStr × JValue),
      validateSegmentEntities (JValue.obj fs) =
        { characters := ensureListField fs (pys "characters")
          locations := ensureListField fs (pys "locations")
          items := ensureListField fs (pys "items")
          time_refs := ensureListField fs (pys "time_refs")
          organizations := ensureListField fs (pys "organizations")
          factions := ensureListField fs (pys "factions")
          titles_ranks := ensureListField fs (pys "titles_ranks")
          skills := ensureListField fs (pys "skills")
          creatures := ensureListField fs (pys "creatures")
          concepts := ensureListField fs (pys "concepts")
          relationships := ensureListField fs (pys "relationships")
          emotions := ensureListField fs (pys "emotions")
          keywords := ensureListField fs (pys "keywords") }) ∧
    (∀ raw : JValue, (validate_and_normalize raw).1 = false ↔
      ((∃ e, nlpModelValidate raw = Except.error e) ∨
        (∃ d, nlpModelValidate raw = Except.ok d ∧ d.segment_summary.summary = []))) := by
  refine ⟨?_, fun fs => rfl, ?_⟩
  · intro fs k
    constructor
    · intro h
      unfold ensureListField
      rw [h]
    · intro v hget harr
      constructor
      · intro ht
        unfold ensureListField
        rw [hget]
        cases v with
        | null => simp [JValue.truthy] at ht
        | arr xs => exact absurd rfl (harr xs)
        | bool b => simp [ht]
        | num q => simp [ht]
        | str s => simp [ht]
        | obj gs => simp [ht]
      · intro ht
        unfold ensureListField
        rw [hget]
        cases v with
        | null => rfl
        | arr xs => exact absurd rfl (harr xs)
        | bool b => simp [ht]
        | num q => simp [ht]
        | str s => simp [ht]
        | obj gs => simp [ht]
  · intro raw
    unfold validate_and_normalize
    cases h : nlpModelValidate raw with
    | error e =>
      constructor
      · intro _
        exact Or.inl ⟨e, rfl⟩
      · intro _
        rfl
    | ok d =>
      by_cases hs : d.segment_summary.summary = []
      · simp only [if_pos hs]
        constructor
        · intro _
          exact Or.inr ⟨d, rfl, hs⟩
        · intro _
          trivial
      · simp only [if_neg hs]
        constructor
        · intro hcontra
          exact absurd hcontra (by simp)
        · intro hcontra
          rcases hcontra with ⟨e, he⟩ | ⟨d', hd', hs'⟩
          · exact Except.noConfusion he
          · rw [Except.ok.injEq] at hd'
            exact absurd (hd' ▸ hs') hs

/-- C10: the validators are total on every JSON value: `ok = true` comes
with no error message, `ok = false` always carries one,
`normalize_model_output` always produces a document (the validated one,
or the all-defaults document on a validation error), and a non-dict
input is validated exactly like the empty
`{segment_summary: {}, segment_entities: {}}` skeleton. -/
theorem C10_validator_totality (raw : JValue) :
    ((validate_and_normalize raw).1 = true → (validate_and_normalize raw).2.2 = none) ∧
    ((validate_and_normalize raw).1 = false → (validate_and_normalize raw).2.2 ≠ none) ∧
    (normalize_model_output raw = NLPDocDefault ∨
      ∃ d, nlpModelValidate raw = Except.ok d ∧ normalize_model_output raw = d) ∧
    (raw.isObj = false →
      nlpModelValidate raw =
        nlpModelValidate (JValue.obj [(pys "segment_summary", JValue.obj []),
          (pys "segment_entities", JValue.obj [])])) := by
  refine ⟨?_, ?_, ?_, ?_⟩
  · unfold validate_and_normalize
    cases h : nlpModelValidate raw with
    | error e => intro hc; exact absurd hc (by simp)
    | ok d =>
      by_cases hs : d.segment_summary.summary = []
      · simp only [if_pos hs]
        intro hc
        exact absurd hc (by simp)
      · simp only [if_neg hs]
        intro _
        trivial
  · unfold validate_and_normalize
    cases h : nlpModelValidate raw with
    | error e => intro _ hc; exact Option.noConfusion hc
    | ok d =>
      by_cases hs : d.segment_summary.summary = []
      · simp only [if_pos hs]
        intro _ hc
        exact Option.noConfusion hc
      · simp only [if_neg hs]
        intro hc
        exact absurd hc (by simp)
  · unfold normalize_model_output
    cases h : nlpModelValidate raw with
    | error e => exact Or.inl rfl
    | ok d => exact Or.inr ⟨d, rfl, rfl⟩
  · intro h
    cases raw with
    | obj fs => simp [JValue.isObj] at h
    | null => rfl
    | bool b => rfl
    | num q => rfl
    | str s => rfl
    | arr xs => rfl

/-- Witness for C10 at the concrete non-dict input `null`: validation
does not raise, reports failure through the flag, and carries an error
message. -/
theorem C10_validator_totality_witness :
    (validate_and_normalize JValue.null).2.2 ≠ none :=
  (C10_validator_totality JValue.null).2.1 (by rfl)

/-- Result of `QwenClient.process_text`: the returned document (with
`none` covering both Python `None` and the falsy `{}`) and the repair
metrics of the stats dict. -/
structure ProcessTextResult where
  output : Option NLPDoc
  repair_calls : Nat
  repair_attempted : Bool
  repair_succeeded : Bool

/-- The validation half of `QwenClient.process_text` (qwen source lines
306-328): validate, on rejection issue one repair call, re-parse and
re-validate its reply, and return `None` only when no repair (including
an earlier parse repair) has succeeded.  `nextRepair.bind parse` is the
parsed reply of the repair call that would be issued here: a failed
repair call and an unparseable repair reply leave the state identically,
so they are modelled together as `none`.  `calls`, `attempted` and
`succeeded` carry the stats dict at entry. -/
def processTextValidation (parse : PyStr → Option JValue) (result : JValue)
    (nextRepair : Option PyStr) (calls : Nat) (attempted succeeded : Bool) :
    ProcessTextResult :=
  if (validate_and_normalize result).1 then
    ⟨(validate_and_normalize result).2.1, calls, attempted, succeeded⟩
  else
    match nextRepair.bind parse with
    | none =>
      if succeeded then ⟨(validate_and_normalize result).2.1, calls + 1, true, succeeded⟩
      else ⟨none, calls + 1, true, false⟩
    | some rr =>
      if succeeded || (validate_and_normalize rr).1 then
        ⟨(validate_and_normalize rr).2.1, calls + 1, true,
          succeeded || (validate_and_normalize rr).1⟩
      else ⟨none, calls + 1, true, false⟩

/-- Embedding of `QwenClient.process_text` (qwen source lines 223-328).
`parse` models `json.loads`; `firstContent` is the first model reply
(`none` when the model call raised); `repairA` and `repairB` are the
replies of the first and second repair calls that would be issued, in
call order. -/
def process_text (parse : PyStr → Option JValue) (firstContent : Option PyStr)
    (repairA repairB : Option PyStr) : ProcessTextResult :=
  match firstContent with
  | none => ⟨none, 0, false, false⟩
  | some content =>
    match parse content with
    | some result => processTextValidation parse result repairA 0 false false
    | none =>
      match repairA.bind parse with
      | none => ⟨none, 1, true, false⟩
      | some result => processTextValidation parse result repairB 1 true true

lemma validate_cases (raw : JValue) :
    (∃ e, validate_and_normalize raw = (false, none, some e) ∧
      nlpModelValidate raw = Except.error e) ∨
    (∃ d, nlpModelValidate raw = Except.ok d ∧
      ((d.segment_summary.summary = [] ∧
          validate_and_normalize raw = (false, some d, some (pys "summary is empty"))) ∨
        (d.segment_summary.summary ≠ [] ∧
          validate_and_normalize raw = (true, some d, none)))) := by
  unfold validate_and_normalize
  cases hv : nlpModelValidate raw with
  | error e => exact Or.inl ⟨e, rfl, rfl⟩
  | ok d =>
    by_cases hs : d.segment_summary.summary = []
    · exact Or.inr ⟨d, rfl, Or.inl ⟨hs, by simp [hs]⟩⟩
    · exact Or.inr ⟨d, rfl, Or.inr ⟨hs, by simp [hs]⟩⟩

lemma validate_fst_true (raw : JValue) (h : (validate_and_normalize raw).1 = true) :
    ∃ d, (validate_and_normalize raw).2.1 = some d ∧ d.segment_summary.summary ≠ [] := by
  rcases validate_cases raw with ⟨e, hveq, _⟩ | ⟨d, _, hcase⟩
  · rw [hveq] at h
    exact Bool.noConfusion h
  · rcases hcase with ⟨hs, hveq⟩ | ⟨hs, hveq⟩
    · rw [hveq] at h
      exact Bool.noConfusion h
    · rw [hveq]
      exact ⟨d, rfl, hs⟩

lemma processTextValidation_spec (parse : PyStr → Option JValue) (result : JValue)
    (nextRepair : Option PyStr) (calls : Nat) (att suc : Bool) (hin : att = suc) :
    (processTextValidation parse result nextRepair calls att suc).repair_calls ≤ calls + 1 ∧
    ((processTextValidation parse result nextRepair calls att suc).repair_attempted = true →
      (processTextValidation parse result nextRepair calls att suc).repair_succeeded = false →
      (processTextValidation parse result nextRepair calls att suc).output = none) ∧
    (∀ d, (processTextValidation parse result nextRepair calls att suc).output = some d →
      d.segment_summary.summary ≠ [] ∨
        (processTextValidation parse result nextRepair calls att suc).repair_succeeded = true) := by
  unfold processTextValidation
  by_cases hb : (validate_and_normalize result).1 = true
  · rw [if_pos hb]
    refine ⟨Nat.le_succ _, ?_, ?_⟩
    · intro h1 h2
      have h1' : att = true := h1
      have h2' : suc = false := h2
      rw [← hin, h1'] at h2'
      exact Bool.noConfusion h2'
    · intro d hd
      obtain ⟨d2, hn, hs⟩ := validate_fst_true result hb
      have hd' : (validate_and_normalize result).2.1 = some d := hd
      rw [hn] at hd'
      exact Or.inl (Option.some.inj hd' ▸ hs)
  · rw [if_neg hb]
    split
    ·
      by_cases hsuc : suc = true
      · rw [if_pos hsuc]
        refine ⟨Nat.le_refl _, ?_, ?_⟩
        · intro _ h2
          have h2' : suc = false := h2
          rw [hsuc] at h2'
          exact Bool.noConfusion h2'
        · intro d _
          exact Or.inr hsuc
      · rw [if_neg hsuc]
        exact ⟨Nat.le_refl _, fun _ _ => rfl, fun d hd => Option.noConfusion hd⟩
    · rename_i rr hrr
      by_cases hb2 : (suc || (validate_and_normalize rr).1) = true
      · rw [if_pos hb2]
        refine ⟨Nat.le_refl _, ?_, ?_⟩
        · intro _ h2
          have h2' : (suc || (validate_and_normalize rr).1) = false := h2
          rw [hb2] at h2'
          exact Bool.noConfusion h2'
        · intro d _
          exact Or.inr hb2
      · rw [if_neg hb2]
        exact ⟨Nat.le_refl _, fun _ _ => rfl, fun d hd => Option.noConfusion hd⟩

/-- Oracle `json.loads` used in the claim C5 counterexample: only the
repaired text parses, to a document with an empty summary. -/
def c5parse : PyStr → Option JValue :=
  fun s => if s = pys "fixed" then some (JValue.obj []) else none

/-- C5 counterexample: when the first reply fails to parse and the
repaired reply parses to an invalid document, a second repair call is
issued for the validation failure — two repair calls in one job, not at
most one; and because the parse repair had succeeded, the invalid
document is returned anyway, so the job does not fail. -/
theorem C5_counterexample :
    (process_text c5parse (some (pys "bad")) (some (pys "fixed")) none).repair_calls = 2 ∧
    ∃ d, (process_text c5parse (some (pys "bad")) (some (pys "fixed")) none).output = some d ∧
      d.segment_summary.summary = [] := by
  constructor
  · rfl
  · exact ⟨_, rfl, rfl⟩

/-- C5 (amended): at most one repair call is issued per failure kind —
one for a JSON parse failure and one for a validation rejection — so at
most two per job, and at most one when the first reply parses; whenever
a repair was attempted and no repair succeeded, no output is returned
(so the job fails); and any returned document either passed validation
or was accepted only because a parse repair succeeded earlier. -/
theorem C5_repair_policy_amended (parse : PyStr → Option JValue)
    (firstContent : Option PyStr) (repairA repairB : Option PyStr) :
    (process_text parse firstContent repairA repairB).repair_calls ≤ 2 ∧
    (∀ c, firstContent = some c → (parse c).isSome = true →
      (process_text parse firstContent repairA repairB).repair_calls ≤ 1) ∧
    ((process_text parse firstContent repairA repairB).repair_attempted = true →
      (process_text parse firstContent repairA repairB).repair_succeeded = false →
      (process_text parse firstContent repairA repairB).output = none) ∧
    (∀ d, (process_text parse firstContent repairA repairB).output = some d →
      d.segment_summary.summary ≠ [] ∨
        (process_text parse firstContent repairA repairB).repair_succeeded = true) := by
  cases firstContent with
  | none =>
    exact ⟨Nat.zero_le 2, fun c hc => Option.noConfusion hc, fun h _ => Bool.noConfusion h,
      fun d hd => Option.noConfusion hd⟩
  | some content =>
    cases hp : parse content with
    | some result =>
      have hred : process_text parse (some content) repairA repairB =
          processTextValidation parse result repairA 0 false false := by
        simp only [process_text, hp]
      have h := processTextValidation_spec parse result repairA 0 false false rfl
      rw [hred]
      exact ⟨h.1.trans (show 0 + 1 ≤ 2 by omega), fun c hc _ => h.1, h.2.1, h.2.2⟩
    | none =>
      have hno : ∀ c, some content = some c → (parse c).isSome = true → False := by
        intro c hc hsome
        cases Option.some.inj hc
        rw [hp] at hsome
        exact Bool.noConfusion hsome
      cases hra : repairA.bind parse with
      | none =>
        have hred : process_text parse (some content) repairA repairB =
            ⟨none, 1, true, false⟩ := by
          simp only [process_text, hp, hra]
        rw [hred]
        exact ⟨Nat.le_succ 1, fun c hc hsome => (hno c hc hsome).elim,
          fun _ _ => rfl, fun d hd => Option.noConfusion hd⟩
      | some result =>
        have hred : process_text parse (some content) repairA repairB =
            processTextValidation parse result repairB 1 true true := by
          simp only [process_text, hp, hra]
        have h := processTextValidation_spec parse result repairB 1 true true rfl
        rw [hred]
        exact ⟨h.1, fun c hc hsome => (hno c hc hsome).elim, h.2.1, h.2.2⟩

/-- Witness for C5 at a concrete input: when the first reply parses, at
most one repair call is issued. -/
theorem C5_repair_policy_amended_witness :
    (process_text (fun _ => some (JValue.obj [])) (some (pys "x")) none none).repair_calls ≤ 1 :=
  (C5_repair_policy_amended (fun _ => some (JValue.obj [])) (some (pys "x")) none none).2.1
    (pys "x") rfl rfl

/-- Witness for C6 at a concrete input: a null `characters` field is
coerced to the empty array. -/
theorem C6_validation_contract_amended_witness :
    ensureListField [(pys "characters", JValue.null)] (pys "characters") = [] :=
  (C6_validation_contract_amended.1 [(pys "characters", JValue.null)] (pys "characters")).1 rfl

/-! ## Dispatch engine and segment processor (`main.py`, `supabase_client.py`) -/

/-- Whether a Python call with the given keyword arguments binds to a
function whose (non-self, default-free) parameters are `params`: every
keyword must name a parameter and every parameter must be supplied,
otherwise the call raises `TypeError`. -/
def pyKwCallBindsOk (params kwargs : List String) : Bool :=
  kwargs.all (fun k => params.contains k) && params.all (fun p => kwargs.contains p)

/-- Parameters of `SupabaseClient.upsert_segment_summary` (supabase
source lines 218-226), excluding `self`; none has a default. -/
def upsert_segment_summary_params : List String :=
  ["segment_id", "edition_id", "summary", "summary_short", "events", "model_version"]

/-- Keyword arguments of the `upsert_segment_summary` call in
`NLPPackWorker.process_job` (main source lines 216-225). -/
def process_job_summary_call_kwargs : List String :=
  ["segment_id", "summary", "summary_short", "events", "beats", "key_dialogue", "tone",
   "model_version"]

/-- Parameters of `SupabaseClient.upsert_segment_entities` (supabase
source lines 250-255), excluding `self`; none has a default. -/
def upsert_segment_entities_params : List String :=
  ["segment_id", "edition_id", "entities", "model_version"]

/-- Keyword arguments of the `upsert_segment_entities` call in
`NLPPackWorker.process_job` (main source lines 235-239). -/
def process_job_entities_call_kwargs : List String :=
  ["segment_id", "entities", "model_version"]

/-- Parameters of `SupabaseClient.upsert_character` (supabase source
lines 284-291), excluding `self`; none has a default. -/
def upsert_character_params : List String :=
  ["work_id", "name", "character_facts", "description", "model_version"]

/-- Keyword arguments of the `upsert_character` call in
`process_character_updates` (character_merge source lines 353-360). -/
def process_character_updates_upsert_kwargs : List String :=
  ["work_id", "name", "aliases", "character_facts", "description", "model_version"]

/-- The `pipeline_jobs.output` document written by `process_job`, reduced
to the fields the claims mention. -/
structure JobOutput where
  skipped : Bool
  reason : Option PyStr
  summary_upserted : Bool
  entities_upserted : Bool
deriving DecidableEq

/-- Result of one `process_job` call: the returned output or the raised
exception, and whether a model call was made. -/
structure ProcResult where
  result : Except PyStr JobOutput
  model_called : Bool

/-- Segment context loaded by `get_segment_with_edition`. -/
structure SegmentInfo where
  media_type : PyStr
  work_id : PyStr
  segment_type : PyStr
  number : Int

/-- External state read by one `process_job` call: the segment join, the
existing-output probes, the extracted source text and the validated
model output (each `none` where the Python code sees a missing value). -/
structure ProcessEnv where
  segment : Option SegmentInfo
  summary_exists : Bool
  entities_exists : Bool
  raw_asset_text : Option PyStr
  model_output : Option NLPDoc
  work_characters : List CharRecord

/-- Whether a character update reaches the insert path of
`process_character_updates` (source lines 307, 325, 350): non-empty
stripped name and no existing character matches. -/
def charUpdateInserts (work_characters : List CharRecord) (u : CharUpdate) : Bool :=
  !(pyStrip u.name).isEmpty &&
    (find_existing_character work_characters (pyStrip u.name) u.aliases).isNone

/-- Embedding of `NLPPackWorker.process_job` (main source lines
140-271): load segment, skip when both outputs exist and `force` is
false, extract text, call the model, then materialize the outputs.  The
materialization calls are modelled through `pyKwCallBindsOk` on the
actual signatures and call sites: a call that does not bind raises
`TypeError`. -/
def processJob (env : ProcessEnv) (force : Bool) : ProcResult :=
  match env.segment with
  | none => ⟨.error (pys "ValueError: Segment not found"), false⟩
  | some seg =>
    if env.summary_exists && env.entities_exists && !force then
      ⟨.ok ⟨true, some (pys "already_exists"), false, false⟩, false⟩
    else
      match env.raw_asset_text with
      | none => ⟨.error (pys "ValueError: Failed to extract source text"), false⟩
      | some _ =>
        match env.model_output with
        | none => ⟨.error (pys "Model processing failed to produce valid output"), true⟩
        | some out =>
          let needSummary := !env.summary_exists || force
          if needSummary &&
              !pyKwCallBindsOk upsert_segment_summary_params process_job_summary_call_kwargs then
            ⟨.error (pys "TypeError: upsert_segment_summary() got an unexpected keyword argument"),
              true⟩
          else
            let needEntities := !env.entities_exists || force
            if needEntities &&
                !pyKwCallBindsOk upsert_segment_entities_params process_job_entities_call_kwargs then
              ⟨.error (pys "TypeError: upsert_segment_entities() missing a required argument"),
                true⟩
            else
              if seg.media_type == pys "novel" &&
                  !out.character_updates.isEmpty &&
                  out.character_updates.any (charUpdateInserts env.work_characters) &&
                  !pyKwCallBindsOk upsert_character_params
                    process_character_updates_upsert_kwargs then
                ⟨.error (pys "TypeError: upsert_character() got an unexpected keyword argument"),
                  true⟩
              else
                ⟨.ok ⟨false, none, needSummary, needEntities⟩, true⟩

/-- Status of a `pipeline_jobs` row. -/
inductive JobStatus where
  | queued
  | running
  | success
  | failed
deriving DecidableEq

/-- A `pipeline_jobs` row, reduced to the fields the claims mention.
`attempt` is `Option` because the column can be null
(`job.get('attempt') or 0`). -/
structure PipelineJob where
  status : JobStatus
  attempt : Option Nat
  error : Option PyStr
  output : Option JobOutput
deriving DecidableEq

/-- Embedding of `SupabaseClient.set_job_running` (supabase source lines
104-111): status `running`, attempt set to the passed value plus one. -/
def set_job_running (job : PipelineJob) (attempt : Nat) : PipelineJob :=
  { job with status := .running, attempt := some (attempt + 1) }

/-- Embedding of `SupabaseClient.set_job_success` (supabase source lines
113-120). -/
def set_job_success (job : PipelineJob) (output : JobOutput) : PipelineJob :=
  { job with status := .success, output := some output }

/-- Embedding of `SupabaseClient.set_job_failed` (supabase source lines
122-129). -/
def set_job_failed (job : PipelineJob) (error : PyStr) : PipelineJob :=
  { job with status := .failed, error := some error }

/-- Embedding of the dispatch part of `NLPPackWorker.run_once` (main
source lines 290-341) for one claimed job: enforce the attempt cap, mark
running, run the processor (`proc` is its outcome) and finalize.  The
second component records whether the job was processed. -/
def run_once_dispatch (job : PipelineJob) (maxRetries : Nat) (proc : ProcResult) :
    PipelineJob × Bool :=
  if maxRetries ≤ job.attempt.getD 0 then
    (set_job_failed job (pys ("Exceeded max retries (" ++ toString maxRetries ++ ")")), false)
  else
    match proc.result with
    | .ok out => (set_job_success (set_job_running job (job.attempt.getD 0)) out, true)
    | .error e => (set_job_failed (set_job_running job (job.attempt.getD 0)) e, true)

/-- C4: for every claimed job, when the attempt counter is at least the
retry cap the dispatcher immediately fails the job with the
"Exceeded max retries" error, does not mark it running and does not
process it (attempt unchanged); otherwise marking it running sets the
attempt to the previous value plus one; and no modelled job operation
ever decreases the attempt counter. -/
theorem C4_attempt_cap_and_monotonicity (job : PipelineJob) (maxRetries : Nat)
    (proc : ProcResult) :
    (maxRetries ≤ job.attempt.getD 0 →
      (run_once_dispatch job maxRetries proc).1.status = JobStatus.failed ∧
      (run_once_dispatch job maxRetries proc).1.error =
        some (pys ("Exceeded max retries (" ++ toString maxRetries ++ ")")) ∧
      (run_once_dispatch job maxRetries proc).2 = false ∧
      (run_once_dispatch job maxRetries proc).1.attempt = job.attempt) ∧
    (job.attempt.getD 0 < maxRetries →
      (run_once_dispatch job maxRetries proc).1.attempt = some (job.attempt.getD 0 + 1)) ∧
    (job.attempt.getD 0 ≤ (run_once_dispatch job maxRetries proc).1.attempt.getD 0) ∧
    (∀ (j : PipelineJob) (out : JobOutput), (set_job_success j out).attempt = j.attempt) ∧
    (∀ (j : PipelineJob) (e : PyStr), (set_job_failed j e).attempt = j.attempt) ∧
    (∀ j : PipelineJob, j.attempt.getD 0 ≤ (set_job_running j (j.attempt.getD 0)).attempt.getD 0) := by
  obtain ⟨res, mc⟩ := proc
  unfold run_once_dispatch
  by_cases hc : maxRetries ≤ job.attempt.getD 0
  · rw [if_pos hc]
    exact ⟨fun _ => ⟨rfl, rfl, rfl, rfl⟩, fun h => absurd hc (not_le.mpr h), Nat.le_refl _,
      fun j out => rfl, fun j e => rfl, fun j => Nat.le_succ _⟩
  · rw [if_neg hc]
    cases res with
    | ok out =>
      exact ⟨fun h => absurd h hc, fun _ => rfl, Nat.le_succ _,
        fun j o => rfl, fun j e => rfl, fun j => Nat.le_succ _⟩
    | error e =>
      exact ⟨fun h => absurd h hc, fun _ => rfl, Nat.le_succ _,
        fun j o => rfl, fun j e => rfl, fun j => Nat.le_succ _⟩

/-- Witness for C4 at a concrete input: a job with `attempt = 2` under
`MAX_RETRIES_PER_JOB = 2` is immediately failed without being processed. -/
theorem C4_attempt_cap_and_monotonicity_witness :
    (run_once_dispatch ⟨.queued, some 2, none, none⟩ 2
        ⟨.ok ⟨false, none, true, true⟩, true⟩).1.status = JobStatus.failed ∧
    (run_once_dispatch ⟨.queued, some 2, none, none⟩ 2
        ⟨.ok ⟨false, none, true, true⟩, true⟩).2 = false :=
  ⟨((C4_attempt_cap_and_monotonicity ⟨.queued, some 2, none, none⟩ 2
      ⟨.ok ⟨false, none, true, true⟩, true⟩).1 (by decide)).1,
    ((C4_attempt_cap_and_monotonicity ⟨.queued, some 2, none, none⟩ 2
      ⟨.ok ⟨false, none, true, true⟩, true⟩).1 (by decide)).2.2.1⟩

/-- C2: for every job whose segment has both output rows and whose input
has `force = false`, the processor returns a skip result with
`skipped = true` and `reason = "already_exists"`, makes no model call,
and the dispatcher finalizes the job as success. -/
theorem C2_idempotent_skip (env : ProcessEnv) (seg : SegmentInfo)
    (hseg : env.segment = some seg) (hs : env.summary_exists = true)
    (he : env.entities_exists = true) :
    (processJob env false).result =
      Except.ok ⟨true, some (pys "already_exists"), false, false⟩ ∧
    (processJob env false).model_called = false ∧
    (∀ (job : PipelineJob) (maxRetries : Nat), job.attempt.getD 0 < maxRetries →
      (run_once_dispatch job maxRetries (processJob env false)).1.status = JobStatus.success) := by
  have hred : processJob env false =
      ⟨.ok ⟨true, some (pys "already_exists"), false, false⟩, false⟩ := by
    simp only [processJob, hseg]
    simp [hs, he]
  rw [hred]
  refine ⟨rfl, rfl, ?_⟩
  intro job maxRetries h
  unfold run_once_dispatch
  rw [if_neg (not_le.mpr h)]
  rfl

/-- Concrete environment for the C2 witness: both outputs exist. -/
def c2Env : ProcessEnv :=
  ⟨some ⟨pys "novel", pys "w1", pys "chapter", 1⟩, true, true, none, none, []⟩

/-- Witness for C2 at a concrete input. -/
theorem C2_idempotent_skip_witness :
    (processJob c2Env false).model_called = false ∧
    (run_once_dispatch ⟨.queued, some 0, none, none⟩ 2 (processJob c2Env false)).1.status =
      JobStatus.success :=
  ⟨(C2_idempotent_skip c2Env ⟨pys "novel", pys "w1", pys "chapter", 1⟩ rfl rfl rfl).2.1,
    (C2_idempotent_skip c2Env ⟨pys "novel", pys "w1", pys "chapter", 1⟩ rfl rfl rfl).2.2
      ⟨.queued, some 0, none, none⟩ 2 (by decide)⟩

/-- Valid model output of the novel happy path: non-empty summary, one
entity, one character update for `"Arthur Leywin"`. -/
def c1Doc : NLPDoc :=
  { segment_summary := ⟨pys "A summary.", pys "Short", [], [], [], toneDefault⟩
    segment_entities := ⟨[.str (pys "Arthur Leywin")], [], [], [], [], [], [], [], [], [], [], [], []⟩
    character_updates := [⟨pys "Arthur Leywin", [], [pys "protagonist"]⟩] }

/-- The novel happy-path environment of claim C1: segment present,
neither output exists, raw text extracted, valid model output, no
existing characters. -/
def c1Env : ProcessEnv :=
  ⟨some ⟨pys "novel", pys "w1", pys "chapter", 1⟩, false, false, some (pys "text"), some c1Doc, []⟩

/-- C1 (code bug): on the novel happy path the upsert helpers cannot be
called as `process_job` calls them — `upsert_segment_summary` does not
accept `beats`/`key_dialogue`/`tone` and requires `edition_id`,
`upsert_segment_entities` requires `edition_id`, and `upsert_character`
does not accept `aliases` — so the first materialization raises
`TypeError` and the dispatcher finalizes the job as failed instead of
success with upserted rows. -/
theorem C1_happy_path_code_bug :
    pyKwCallBindsOk upsert_segment_summary_params process_job_summary_call_kwargs = false ∧
    pyKwCallBindsOk upsert_segment_entities_params process_job_entities_call_kwargs = false ∧
    pyKwCallBindsOk upsert_character_params process_character_updates_upsert_kwargs = false ∧
    (processJob c1Env false).result =
      Except.error (pys "TypeError: upsert_segment_summary() got an unexpected keyword argument") ∧
    (run_once_dispatch ⟨.queued, some 0, none, none⟩ 2 (processJob c1Env false)).1.status =
      JobStatus.failed := by
  exact ⟨rfl, rfl, rfl, rfl, rfl⟩

/-! ## Enqueue scanner (`enqueue.py`) -/

/-- A candidate row produced by `get_segments_missing_nlp` (enqueue
source lines 151-161).  Note the dict it builds carries no
`has_cleaned` key. -/
structure EnqCandidate where
  segment_id : String
  edition_id : String
  work_id : String
  has_summary : Bool
  has_entities : Bool
deriving DecidableEq

/-- Stats dict of `enqueue_jobs` (enqueue source line 221). -/
structure EnqStats where
  enqueued : Nat
  skipped_pending : Nat
  skipped_complete : Nat
deriving DecidableEq

/-- A `pipeline_jobs` row inserted by `SupabaseClient.enqueue_nlp_job`
(supabase source lines 353-374). -/
structure EnqueuedJob where
  job_type : String
  segment_id : String
  edition_id : String
  work_id : String
  input_task : String
  input_force : Bool
  status : String
deriving DecidableEq

/-- The row built by `enqueue_nlp_job` for a candidate segment, with the
segment's edition and work back-references. -/
def mkEnqueuedJob (seg : EnqCandidate) (force : Bool) : EnqueuedJob :=
  ⟨"summarize", seg.segment_id, seg.edition_id, seg.work_id, "nlp_pack_v1", force, "queued"⟩

/-- Embedding of the per-candidate loop of `enqueue_jobs` (enqueue
source lines 223-244).  `pending` is `check_pending_job` (a queued or
running summarize job exists for the segment).  The completeness skip
reads `seg.get('has_cleaned', False)`, a key `get_segments_missing_nlp`
never sets, so its lookup is the constant `false`. -/
def enqueue_jobs_go (pending : String → Bool) (force dry_run : Bool) :
    List EnqCandidate → EnqStats × List EnqueuedJob
  | [] => (⟨0, 0, 0⟩, [])
  | seg :: rest =>
    let prev := enqueue_jobs_go pending force dry_run rest
    if !force && (false && seg.has_summary && seg.has_entities) then
      (⟨prev.1.enqueued, prev.1.skipped_pending, prev.1.skipped_complete + 1⟩, prev.2)
    else if pending seg.segment_id then
      (⟨prev.1.enqueued, prev.1.skipped_pending + 1, prev.1.skipped_complete⟩, prev.2)
    else if dry_run then
      (⟨prev.1.enqueued + 1, prev.1.skipped_pending, prev.1.skipped_complete⟩, prev.2)
    else
      (⟨prev.1.enqueued + 1, prev.1.skipped_pending, prev.1.skipped_complete⟩,
        mkEnqueuedJob seg force :: prev.2)

/-- Concrete candidate with a pending job, used in the claim C9
counterexample. -/
def c9Seg : EnqCandidate := ⟨"s1", "e1", "w1", false, false⟩

/-- C9 counterexample: with `force = true` and a pending job on the
segment, the scanner inserts nothing and counts the segment as
`skipped_pending` — `force` does not bypass the pending-set skip. -/
theorem C9_counterexample :
    (enqueue_jobs_go (fun _ => true) true false [c9Seg]).2 = [] ∧
    (enqueue_jobs_go (fun _ => true) true false [c9Seg]).1.skipped_pending = 1 := by
  exact ⟨rfl, rfl⟩

/-- C9 (amended): in a non-dry run the scanner inserts, for exactly the
candidate segments that have no pending queued or running summarize job
— regardless of `force` — a new job with `job_type = "summarize"`,
`status = "queued"`, `input = {task: "nlp_pack_v1", force}` and the
segment's edition and work back-references; candidates with a pending
job are skipped even when `force = true`. -/
theorem C9_enqueue_pending_rule_amended (pending : String → Bool) (force : Bool)
    (segs : List EnqCandidate) :
    (enqueue_jobs_go pending force false segs).2 =
      (segs.filter fun s => !pending s.segment_id).map (fun s => mkEnqueuedJob s force) ∧
    (∀ j ∈ (enqueue_jobs_go pending force false segs).2,
      j.job_type = "summarize" ∧ j.input_task = "nlp_pack_v1" ∧ j.input_force = force ∧
        j.status = "queued") := by
  constructor
  · induction segs with
    | nil => rfl
    | cons seg rest ih =>
      simp only [enqueue_jobs_go, List.filter_cons]
      by_cases hp : pending seg.segment_id
      · simp [hp, ih]
      · simp [hp, ih]
  · intro j hj
    induction segs with
    | nil => simp [enqueue_jobs_go] at hj
    | cons seg rest ih =>
      simp only [enqueue_jobs_go] at hj
      by_cases hp : pending seg.segment_id
      · simp [hp] at hj
        exact ih hj
      · simp [hp] at hj
        rcases hj with rfl | hj2
        · exact ⟨rfl, rfl, rfl, rfl⟩
        · exact ih hj2

/-- Witness for C9 at a concrete input: a candidate without a pending
job gets a queued `nlp_pack_v1` job. -/
theorem C9_enqueue_pending_rule_amended_witness :
    (enqueue_jobs_go (fun _ => false) false false [c9Seg]).2 =
      [mkEnqueuedJob c9Seg false] ∧
    (mkEnqueuedJob c9Seg false).input_task = "nlp_pack_v1" :=
  ⟨(C9_enqueue_pending_rule_amended (fun _ => false) false [c9Seg]).1,
    ((C9_enqueue_pending_rule_amended (fun _ => false) false [c9Seg]).2
      (mkEnqueuedJob c9Seg false) (by decide)).2.1⟩
